import Mathlib

/-!
Verification of the GitScore-Copilot repository-scoring engine and its
caching layer.

The JavaScript source (`src/lib/scoring.js`, the client-side service with its
localStorage cache, the MongoDB cache utility) is shallowly embedded below:
JS numbers become real numbers `ℝ` (timestamps and counts, which the code
keeps integral, become `ℤ`/`ℕ`), optional/nullable fields become `Option`,
JS objects become structures, and the impure clock reads (`new Date()`,
`Date.now()`) become explicit `now` parameters.  `Math.round` on the
nonnegative values that occur here is `⌊x + 1/2⌋`.
-/

namespace GitScore

/-- JS `Math.round` (round half towards +∞), as used on the nonnegative
scores of this program: `Math.round x = ⌊x + 1/2⌋`. -/
noncomputable def jsRound (x : ℝ) : ℤ := ⌊x + (1:ℝ)/2⌋

/-- JS truthiness of an optional string: `undefined`/`null` and the empty
string are falsy, every other string is truthy. -/
def jsTruthyStr : Option String → Bool
  | none => false
  | some s => s ≠ ""

/-- JS `String.prototype.toLowerCase`, modelled as the character-wise
simple lower-case map. -/
def jsToLowerCase (s : String) : String := ⟨s.data.map Char.toLower⟩

/-- `normalizeLog(value, min, max, base)` from `scoring.js`:
`if (value <= min) return 0; if (value >= max) return 1;
return Math.log(value - min + 1) / Math.log(max - min + 1);`
(the `base` parameter is declared in the source but never used). -/
noncomputable def normalizeLog (value min max base : ℝ) : ℝ :=
  if value ≤ min then 0
  else if max ≤ value then 1
  else Real.log (value - min + 1) / Real.log (max - min + 1)

/-- `normalizeLinear(value, min, max)` from `scoring.js`:
`if (value <= min) return 0; if (value >= max) return 1;
return (value - min) / (max - min);` -/
noncomputable def normalizeLinear (value min max : ℝ) : ℝ :=
  if value ≤ min then 0
  else if max ≤ value then 1
  else (value - min) / (max - min)

theorem normalizeLog_nonneg (v mn mx b : ℝ) : 0 ≤ normalizeLog v mn mx b := by
  unfold normalizeLog
  split_ifs with h1 h2
  · exact le_refl 0
  · norm_num
  · push_neg at h1 h2
    apply div_nonneg
    · exact Real.log_nonneg (by linarith)
    · exact Real.log_nonneg (by linarith)

theorem normalizeLog_le_one (v mn mx b : ℝ) : normalizeLog v mn mx b ≤ 1 := by
  unfold normalizeLog
  split_ifs with h1 h2
  · norm_num
  · exact le_refl 1
  · push_neg at h1 h2
    rw [div_le_one (Real.log_pos (by linarith))]
    exact Real.log_le_log (by linarith) (by linarith)

theorem normalizeLinear_nonneg (v mn mx : ℝ) : 0 ≤ normalizeLinear v mn mx := by
  unfold normalizeLinear
  split_ifs with h1 h2
  · exact le_refl 0
  · norm_num
  · push_neg at h1 h2
    apply div_nonneg <;> linarith

theorem normalizeLinear_le_one (v mn mx : ℝ) : normalizeLinear v mn mx ≤ 1 := by
  unfold normalizeLinear
  split_ifs with h1 h2
  · norm_num
  · exact le_refl 1
  · push_neg at h1 h2
    rw [div_le_one (by linarith)]
    linarith

/-! ## README text analysis

`scoreDocumentation` inspects the README with four global regexes.  Each is
re-implemented below as a character scan with exactly the semantics of the
JS regex on the patterns in question (lazy `.*?` not matching line
terminators, global non-overlapping matching, one-character advance after a
failed attempt).  JS string `.length` (UTF-16 units) is modelled by
codepoint length, which agrees on all non-astral text. -/

/-- The backquote character. -/
def tickChar : Char := Char.ofNat 96

/-- JS regex `\s` character class (whitespace). -/
def jsWhitespace (c : Char) : Bool :=
  List.elem c.toNat
      [9, 10, 11, 12, 13, 32, 160, 0x1680, 0x2028, 0x2029, 0x202f, 0x205f,
       0x3000, 0xfeff] ||
    (0x2000 ≤ c.toNat && c.toNat ≤ 0x200a)

/-- JS `.` in a non-dotall regex: any char except line terminators. -/
def jsDot (c : Char) : Bool :=
  !(c.toNat = 10 || c.toNat = 13 || c.toNat = 0x2028 || c.toNat = 0x2029)

/-- Number of matches of `/#{1,6}\s/g`: the regex matches once per run of
one or more hash signs that is immediately followed by a whitespace
character, so the matches are exactly the positions where a hash sign is
directly followed by whitespace. -/
def countSectionsAux : List Char → ℕ
  | c1 :: c2 :: rest =>
    (if c1 = '#' ∧ jsWhitespace c2 then 1 else 0) + countSectionsAux (c2 :: rest)
  | _ => 0

def countSections (s : String) : ℕ := countSectionsAux s.data

/-- Number of (non-overlapping) matches of the three-backquote fence
delimiter regex. -/
def countTicksAux : List Char → ℕ
  | c1 :: c2 :: c3 :: rest =>
    if c1 = tickChar ∧ c2 = tickChar ∧ c3 = tickChar then 1 + countTicksAux rest
    else countTicksAux (c2 :: c3 :: rest)
  | _ => 0

def countTicks (s : String) : ℕ := countTicksAux s.data

/-- `const codeBlocks = (readmeText.match(...) || []).length / 2;` — a real
number (possibly `x.5`). -/
noncomputable def codeBlocks (s : String) : ℝ := (countTicks s : ℝ) / 2

/-- Scan for the lazy `\(.*?\)` tail of the markdown-link regex: expects an
opening parenthesis, then the nearest closing parenthesis with no line
terminator in between; returns the remaining characters. -/
def scanClose : List Char → Option (List Char)
  | [] => none
  | c2 :: r2 =>
    if c2 = ')' then some r2
    else if jsDot c2 then scanClose r2
    else none

def tryParen : List Char → Option (List Char)
  | c :: rest => if c = '(' then scanClose rest else none
  | [] => none

/-- Lazy scan of `.*?\]\(.*?\)` (the characters after a consumed opening
bracket): at each closing bracket first try the parenthesis part, and on
failure let the lazy `.*?` swallow the bracket and continue. -/
def tryBracket : List Char → Option (List Char)
  | [] => none
  | c :: rest =>
    if c = ']' then
      match tryParen rest with
      | some r => some r
      | none => tryBracket rest
    else if jsDot c then tryBracket rest
    else none

/-- Number of matches of the global markdown-link regex (a bracketed part
immediately followed by a parenthesised part, both lazy). -/
def countLinksAux : ℕ → List Char → ℕ
  | 0, _ => 0
  | _ + 1, [] => 0
  | fuel + 1, c :: rest =>
    if c = '[' then
      match tryBracket rest with
      | some r => 1 + countLinksAux fuel r
      | none => countLinksAux fuel rest
    else countLinksAux fuel rest

def countLinks (s : String) : ℕ := countLinksAux s.length s.data

/-- Number of matches of the global image/badge regex: an exclamation mark,
then a markdown link. -/
def countBadgesAux : ℕ → List Char → ℕ
  | 0, _ => 0
  | _ + 1, [] => 0
  | fuel + 1, c :: rest =>
    if c = '!' then
      match rest with
      | c2 :: rest2 =>
        if c2 = '[' then
          match tryBracket rest2 with
          | some r => 1 + countBadgesAux fuel r
          | none => countBadgesAux fuel rest
        else countBadgesAux fuel rest
      | [] => 0
    else countBadgesAux fuel rest

def countBadges (s : String) : ℕ := countBadgesAux s.length s.data

theorem normalizeLog_mono (v w mn mx b : ℝ) (hvw : v ≤ w) :
    normalizeLog v mn mx b ≤ normalizeLog w mn mx b := by
  rcases le_or_lt v mn with h | h
  · rw [show normalizeLog v mn mx b = 0 by rw [normalizeLog, if_pos h]]
    exact normalizeLog_nonneg w mn mx b
  · have hwmn : ¬ w ≤ mn := not_le.mpr (lt_of_lt_of_le h hvw)
    rcases le_or_lt mx w with h3 | h3
    · rw [show normalizeLog w mn mx b = 1 by
        rw [normalizeLog, if_neg hwmn, if_pos h3]]
      exact normalizeLog_le_one v mn mx b
    · have hvmx : ¬ mx ≤ v := not_le.mpr (lt_of_le_of_lt hvw h3)
      rw [normalizeLog, normalizeLog, if_neg (not_le.mpr h), if_neg hwmn,
        if_neg hvmx, if_neg (not_le.mpr h3)]
      rw [div_le_div_right (Real.log_pos (by linarith))]
      exact Real.log_le_log (by linarith) (by linarith)

theorem normalizeLinear_mono (v w mn mx : ℝ) (hvw : v ≤ w) :
    normalizeLinear v mn mx ≤ normalizeLinear w mn mx := by
  rcases le_or_lt v mn with h | h
  · rw [show normalizeLinear v mn mx = 0 by rw [normalizeLinear, if_pos h]]
    exact normalizeLinear_nonneg w mn mx
  · have hwmn : ¬ w ≤ mn := not_le.mpr (lt_of_lt_of_le h hvw)
    rcases le_or_lt mx w with h3 | h3
    · rw [show normalizeLinear w mn mx = 1 by
        rw [normalizeLinear, if_neg hwmn, if_pos h3]]
      exact normalizeLinear_le_one v mn mx
    · have hvmx : ¬ mx ≤ v := not_le.mpr (lt_of_le_of_lt hvw h3)
      rw [normalizeLinear, normalizeLinear, if_neg (not_le.mpr h), if_neg hwmn,
        if_neg hvmx, if_neg (not_le.mpr h3)]
      rw [div_le_div_right (by linarith)]
      linarith

/-! ## JS calendar arithmetic

`scoreMaintenance` computes `threeMonthsAgo` by taking the current `Date`
and calling `setMonth(getMonth() - 3)`.  Per the ECMAScript specification
this moves the month field back three (borrowing from the year), keeps the
day-of-month and the time of day, and lets an out-of-range day-of-month
overflow into the following month.  The process is modelled here for a UTC
host timezone, with the proleptic-Gregorian day/date conversions written in
terms of integer floor division. -/

/-- Serial day number (days since 1970-01-01) of a civil date `(y, m, d)`
with month `1..12`; a `d` beyond the end of the month overflows into the
following months, exactly like the ECMAScript `MakeDay` operation composed
with the first-of-month day number. -/
def daysFromCivil (y m d : ℤ) : ℤ :=
  let y2 := y - (if m ≤ 2 then 1 else 0)
  let era := y2.fdiv 400
  let yoe := y2 - era * 400
  let mp := m + (if 2 < m then -3 else 9)
  let doy := (153 * mp + 2).fdiv 5 + d - 1
  let doe := yoe * 365 + yoe.fdiv 4 - yoe.fdiv 100 + doy
  era * 146097 + doe - 719468

/-- Civil date `(y, m, d)` (month `1..12`) of a serial day number. -/
def civilFromDays (z : ℤ) : ℤ × ℤ × ℤ :=
  let z2 := z + 719468
  let era := z2.fdiv 146097
  let doe := z2 - era * 146097
  let yoe := (doe - doe.fdiv 1460 + doe.fdiv 36524 - doe.fdiv 146096).fdiv 365
  let y := yoe + era * 400
  let doy := doe - (365 * yoe + yoe.fdiv 4 - yoe.fdiv 100)
  let mp := (5 * doy + 2).fdiv 153
  let d := doy - (153 * mp + 2).fdiv 5 + 1
  let m := mp + (if mp < 10 then 3 else -9)
  (y + (if m ≤ 2 then 1 else 0), m, d)

/-- `d.setMonth(d.getMonth() + delta)` on a UTC-timezone host, for an epoch
timestamp in milliseconds: shift the month field, keep day-of-month and
time of day, normalise. -/
def jsAddMonths (ms delta : ℤ) : ℤ :=
  let day := ms.fdiv 86400000
  let tod := ms - 86400000 * day
  let c := civilFromDays day
  let mo := c.2.1 - 1 + delta
  let y2 := c.1 + mo.fdiv 12
  let m2 := mo.fmod 12
  86400000 * (daysFromCivil y2 (m2 + 1) 1 + (c.2.2 - 1)) + tod

/-! ## Data model

The slice of the GraphQL repository record that the scorers read
(`src/lib/scoring.js`).  Optional/nullable fields are `Option`; the
`totalCount` wrapper objects are collapsed to their counts (`x?.totalCount`
with a missing wrapper and a missing count both read as `undefined`);
`history` and its `nodes` list are collapsed to one optional list; commit
timestamps and the `pushedAt` instant are epoch milliseconds. -/

structure CommitUser where
  login : String

structure CommitAuthor where
  name : Option String
  email : Option String
  user : Option CommitUser

structure CommitNode where
  committedDate : ℤ
  author : Option CommitAuthor

structure Repo where
  name : String
  description : Option String
  url : String
  stargazerCount : Option ℕ
  forkCount : Option ℕ
  watchers : Option ℕ
  issues : Option ℕ
  closedIssues : Option ℕ
  pullRequests : Option ℕ
  mergedPullRequests : Option ℕ
  releases : Option ℕ
  codeOfConduct : Bool
  securityPolicyUrl : Option String
  pushedAt : Option ℤ
  updatedAt : Option String
  hasIssuesEnabled : Bool
  hasWikiEnabled : Bool
  hasDiscussionsEnabled : Bool
  hasVulnerabilityAlertsEnabled : Bool
  objectText : Option String
  readmeObjectText : Option String
  contributingObjectText : Option String
  defaultBranchHistory : Option (List CommitNode)
  languages : List String

/-- The argument of `calculateRepositoryScore`: the GraphQL response with
its `repository` record (required to be present). -/
structure RepoData where
  repository : Repo

/-- JS `x || y` on two possibly-absent strings. -/
def jsOrStr (x y : Option String) : Option String :=
  if jsTruthyStr x then x else y

/-- What a category scorer returns: `{score, details, breakdown}`.  The
`details` template string is modelled by the tuple of JS values interpolated
into it. -/
structure CategoryResult (δ β : Type) where
  score : ℝ
  details : δ
  breakdown : β

structure DocBreakdown where
  readme : ℝ
  contributing : ℝ
  codeOfConduct : ℝ
  releases : ℝ

structure DocDetails where
  readmeScore : ℝ
  codeOfConduct : ℝ
  releaseCount : ℕ

structure MaintBreakdown where
  recentCommits : ℝ
  commitFrequency : ℝ
  issueManagement : ℝ
  prManagement : ℝ

/-- `daysSinceLastCommit` is `Infinity` when `pushedAt` is absent, modelled
as `none`. -/
structure MaintDetails where
  daysSinceLastCommit : Option ℤ
  weeklyCommits : ℝ

structure QualityBreakdown where
  ciPipeline : ℝ
  testCoverage : ℝ
  linting : ℝ
  buildStatus : ℝ

structure QualityDetails where
  hasWorkflows : Bool
  workflowCount : ℕ

structure CommunityBreakdown where
  contributors : ℝ
  discussions : ℝ
  responseTime : ℝ
  communityHealth : ℝ

structure CommunityDetails where
  contributorCount : ℕ
  hasDiscussionsEnabled : Bool

structure PopularityBreakdown where
  stars : ℝ
  forks : ℝ
  watchers : ℝ
  downloads : ℝ

structure PopularityDetails where
  stars : ℕ
  forks : ℕ
  watchers : ℕ

structure SecurityBreakdown where
  vulnerabilityAlerts : ℝ
  dependencyHealth : ℝ
  signedCommits : ℝ
  securityPractices : ℝ

structure SecurityDetails where
  hasVulnerabilityAlertsEnabled : Bool

/-! ## The six category scorers -/

/-- `scoreDocumentation(repo, readmeText, contributingText)`. -/
noncomputable def scoreDocumentation (repo : Repo)
    (readmeText contributingText : Option String) :
    CategoryResult DocDetails DocBreakdown :=
  let readmeScore : ℝ :=
    match readmeText with
    | none => 0
    | some s =>
      if s = "" then 0
      else
        (if 500 < s.length ∧ 2 ≤ countSections s then (0.5 : ℝ) else 0) +
          (if 1 ≤ codeBlocks s ∧ 2 ≤ countLinks s ∧ 1 ≤ countBadges s
            then (0.5 : ℝ) else 0)
  let readme : ℝ := if jsTruthyStr readmeText then min readmeScore 1 else 0
  let contributing : ℝ :=
    match contributingText with
    | some s => if s ≠ "" ∧ 100 < s.length then 1 else 0
    | none => 0
  let codeOfConduct : ℝ := if repo.codeOfConduct then 1 else 0
  let releaseCount : ℕ := repo.releases.getD 0
  let releases : ℝ :=
    if 5 ≤ releaseCount then 1
    else if 2 ≤ releaseCount then 0.7
    else if 1 ≤ releaseCount then 0.4
    else 0
  let avgScore := (readme + contributing + codeOfConduct + releases) / 4
  ⟨avgScore, ⟨readmeScore, codeOfConduct, releaseCount⟩,
    ⟨readme, contributing, codeOfConduct, releases⟩⟩

/-- `scoreMaintenance(repo, commitHistory)`; the two `new Date()` clock
reads become the explicit `now` parameter (epoch ms). -/
noncomputable def scoreMaintenance (repo : Repo)
    (commitHistory : Option (List CommitNode)) (now : ℤ) :
    CategoryResult MaintDetails MaintBreakdown :=
  let daysSinceLastCommit : Option ℤ :=
    repo.pushedAt.map (fun t => (now - t).fdiv 86400000)
  let recentCommits : ℝ :=
    match daysSinceLastCommit with
    | some d => if d ≤ 30 then 1 else if d ≤ 90 then 0.5 else 0
    | none => 0
  let threeMonthsAgo := jsAddMonths now (-3)
  let recentCount :=
    ((commitHistory.getD []).filter
      (fun c => threeMonthsAgo < c.committedDate)).length
  let weeklyCommits : ℝ := (recentCount : ℝ) / 12
  let commitFrequency : ℝ := min (weeklyCommits / 2) 1
  let openIssues := repo.issues.getD 0
  let closedIssues := repo.closedIssues.getD 0
  let totalIssues := openIssues + closedIssues
  let issueManagement : ℝ :=
    if 0 < totalIssues then (closedIssues : ℝ) / (totalIssues : ℝ) else 0.5
  let openPRs := repo.pullRequests.getD 0
  let mergedPRs := repo.mergedPullRequests.getD 0
  let totalPRs := openPRs + mergedPRs
  let prManagement : ℝ :=
    if 0 < totalPRs then (mergedPRs : ℝ) / (totalPRs : ℝ) else 0.5
  let avgScore :=
    (recentCommits + commitFrequency + issueManagement + prManagement) / 4
  ⟨avgScore, ⟨daysSinceLastCommit, weeklyCommits⟩,
    ⟨recentCommits, commitFrequency, issueManagement, prManagement⟩⟩

/-- `scoreQuality(workflowData, repo)`; the optional chain
`workflowData?.repository?.object?.entries` is modelled as one optional
list of entry names (`none` for a break anywhere in the chain). -/
noncomputable def scoreQuality (workflowData : Option (List String))
    (repo : Repo) : CategoryResult QualityDetails QualityBreakdown :=
  let hasWorkflows : Bool :=
    match workflowData with
    | some entries => decide (0 < entries.length)
    | none => false
  let ciPipeline : ℝ := if hasWorkflows then 1 else 0
  let testCoverage : ℝ := 0
  let linting : ℝ := 0
  let buildStatus : ℝ := if hasWorkflows then 0.5 else 0
  let avgScore := (ciPipeline + testCoverage + linting + buildStatus) / 4
  ⟨avgScore, ⟨hasWorkflows, (workflowData.getD []).length⟩,
    ⟨ciPipeline, testCoverage, linting, buildStatus⟩⟩

/-- The contributor identifier of one commit:
`commit.author.user?.login || commit.author.email || commit.author.name`,
kept only when the author object exists and the result is truthy. -/
def commitIdentifier (c : CommitNode) : Option String :=
  c.author.bind fun a =>
    let i := jsOrStr (a.user.map CommitUser.login) (jsOrStr a.email a.name)
    if jsTruthyStr i then i else none

/-- The size of the `Set` of lowercased identifiers of a commit list. -/
def uniqueContributorCount (nodes : List CommitNode) : ℕ :=
  ((nodes.filterMap commitIdentifier).map jsToLowerCase).dedup.length

/-- `scoreCommunity(repo, commitHistory)`. -/
noncomputable def scoreCommunity (repo : Repo)
    (commitHistory : Option (List CommitNode)) :
    CategoryResult CommunityDetails CommunityBreakdown :=
  let contributorCount : ℕ :=
    match commitHistory with
    | none => 1
    | some nodes => max (uniqueContributorCount nodes) 1
  let contributors : ℝ := normalizeLog (contributorCount : ℝ) 1 50 2
  let discussions : ℝ :=
    if repo.hasDiscussionsEnabled || repo.hasWikiEnabled then 1 else 0
  let responseTime : ℝ := 0.5
  let communityHealth : ℝ := if repo.codeOfConduct then 1 else 0
  let avgScore :=
    (contributors + discussions + responseTime + communityHealth) / 4
  ⟨avgScore, ⟨contributorCount, repo.hasDiscussionsEnabled⟩,
    ⟨contributors, discussions, responseTime, communityHealth⟩⟩

/-- `scorePopularity(repo)`. -/
noncomputable def scorePopularity (repo : Repo) :
    CategoryResult PopularityDetails PopularityBreakdown :=
  let stars : ℝ := normalizeLog (repo.stargazerCount.getD 0 : ℝ) 0 1000 10
  let forks : ℝ := normalizeLog (repo.forkCount.getD 0 : ℝ) 0 100 10
  let watchers : ℝ := normalizeLinear (repo.watchers.getD 0 : ℝ) 0 50
  let downloads : ℝ := 0.5
  let avgScore := (stars + forks + watchers + downloads) / 4
  ⟨avgScore,
    ⟨repo.stargazerCount.getD 0, repo.forkCount.getD 0, repo.watchers.getD 0⟩,
    ⟨stars, forks, watchers, downloads⟩⟩

/-- `scoreSecurity(repo)`. -/
noncomputable def scoreSecurity (repo : Repo) :
    CategoryResult SecurityDetails SecurityBreakdown :=
  let vulnerabilityAlerts : ℝ :=
    if repo.hasVulnerabilityAlertsEnabled then 1 else 0
  let dependencyHealth : ℝ := 0.5
  let signedCommits : ℝ := 0
  let securityPractices : ℝ :=
    if jsTruthyStr repo.securityPolicyUrl then 1 else 0
  let avgScore :=
    (vulnerabilityAlerts + dependencyHealth + signedCommits +
      securityPractices) / 4
  ⟨avgScore, ⟨repo.hasVulnerabilityAlertsEnabled⟩,
    ⟨vulnerabilityAlerts, dependencyHealth, signedCommits, securityPractices⟩⟩

/-! ## The aggregator -/

structure Weights where
  documentation : ℝ
  maintenance : ℝ
  quality : ℝ
  community : ℝ
  popularity : ℝ
  security : ℝ

/-- The fixed category weights of `scoring.js`. -/
noncomputable def CATEGORY_WEIGHTS : Weights :=
  ⟨0.20, 0.20, 0.15, 0.15, 0.15, 0.15⟩

/-- One entry of the final per-category breakdown:
`{score (0-10, one decimal), details, weight}`. -/
structure CatDisplay (δ : Type) where
  score : ℝ
  details : δ
  weight : ℝ

structure Breakdown where
  documentation : CatDisplay DocDetails
  maintenance : CatDisplay MaintDetails
  quality : CatDisplay QualityDetails
  community : CatDisplay CommunityDetails
  popularity : CatDisplay PopularityDetails
  security : CatDisplay SecurityDetails

structure RepoSummary where
  name : String
  description : Option String
  url : String
  stars : Option ℕ
  forks : Option ℕ
  language : String
  updatedAt : Option String
  pushedAt : Option ℤ
  hasIssuesEnabled : Bool
  hasWikiEnabled : Bool
  hasDiscussionsEnabled : Bool

structure Metadata where
  scoringVersion : String
  categories : List String
  weights : Weights
  calculatedAt : String

structure ScoreResult where
  score : ℝ
  breakdown : Breakdown
  repository : RepoSummary
  metadata : Metadata

/-- `repo.languages?.edges?.[0]?.node?.name || "Unknown"`. -/
def jsLanguage (langs : List String) : String :=
  match langs.head? with
  | some s => if s = "" then "Unknown" else s
  | none => "Unknown"

/-- Round a 0-1 score to one decimal on the 0-10 scale:
`Math.round(score * 10 * 10) / 10`. -/
noncomputable def displayScore (x : ℝ) : ℝ := (jsRound (x * 10 * 10) : ℝ) / 10

/-- `calculateRepositoryScore(repoData, workflowData)`; the clock reads
become the `now` (epoch ms, used by `scoreMaintenance`) and `calculatedAt`
(the ISO string placed in the metadata) parameters. -/
noncomputable def calculateRepositoryScore (repoData : RepoData)
    (workflowData : Option (List String)) (now : ℤ) (calculatedAt : String) :
    ScoreResult :=
  let repo := repoData.repository
  let readmeText := jsOrStr repo.objectText repo.readmeObjectText
  let contributingText := repo.contributingObjectText
  let commitHistory := repo.defaultBranchHistory
  let documentation := scoreDocumentation repo readmeText contributingText
  let maintenance := scoreMaintenance repo commitHistory now
  let quality := scoreQuality workflowData repo
  let community := scoreCommunity repo commitHistory
  let popularity := scorePopularity repo
  let security := scoreSecurity repo
  let weightedScore :=
    documentation.score * CATEGORY_WEIGHTS.documentation +
      maintenance.score * CATEGORY_WEIGHTS.maintenance +
      quality.score * CATEGORY_WEIGHTS.quality +
      community.score * CATEGORY_WEIGHTS.community +
      popularity.score * CATEGORY_WEIGHTS.popularity +
      security.score * CATEGORY_WEIGHTS.security
  let finalScore : ℝ := (jsRound (weightedScore * 10 * 10) : ℝ) / 10
  { score := min finalScore 10
    breakdown :=
      { documentation :=
          ⟨displayScore documentation.score, documentation.details,
            CATEGORY_WEIGHTS.documentation⟩
        maintenance :=
          ⟨displayScore maintenance.score, maintenance.details,
            CATEGORY_WEIGHTS.maintenance⟩
        quality :=
          ⟨displayScore quality.score, quality.details,
            CATEGORY_WEIGHTS.quality⟩
        community :=
          ⟨displayScore community.score, community.details,
            CATEGORY_WEIGHTS.community⟩
        popularity :=
          ⟨displayScore popularity.score, popularity.details,
            CATEGORY_WEIGHTS.popularity⟩
        security :=
          ⟨displayScore security.score, security.details,
            CATEGORY_WEIGHTS.security⟩ }
    repository :=
      { name := repo.name
        description := repo.description
        url := repo.url
        stars := repo.stargazerCount
        forks := repo.forkCount
        language := jsLanguage repo.languages
        updatedAt := repo.updatedAt
        pushedAt := repo.pushedAt
        hasIssuesEnabled := repo.hasIssuesEnabled
        hasWikiEnabled := repo.hasWikiEnabled
        hasDiscussionsEnabled := repo.hasDiscussionsEnabled }
    metadata :=
      { scoringVersion := "2.0"
        categories :=
          ["documentation", "maintenance", "quality", "community",
           "popularity", "security"]
        weights := CATEGORY_WEIGHTS
        calculatedAt := calculatedAt } }

/-! ## Cache layer

Two stores implement the `getCachedScore`/`cacheScore` contract: the
client-side transient store over browser localStorage
(`GitScore-Copilot-service.js`) and the persistent MongoDB store.  Failures
of the backing store are part of the model: in JS they surface as thrown
exceptions (localStorage access, `JSON.parse`/`JSON.stringify`, Mongo
connection and query errors), all of which the source wraps in
`try`/`catch`; here each failure mode is a field of the store state and the
embedded functions show what the `catch` handler returns. -/

/-- What `JSON.parse` of a localStorage cell yields: a well-formed cached
entry `{...scoreData, timestamp}`, or corrupt text (the parse throws). -/
inductive LSCell (α : Type) where
  | good (payload : α) (timestamp : ℤ)
  | corrupt
deriving DecidableEq

/-- Browser localStorage as seen by the service: `available = false` models
`localStorage.getItem`/`setItem` throwing (storage disabled), `quotaFull`
models `setItem` throwing on write, and `items` is the string-keyed
store. -/
structure LSState (α : Type) where
  available : Bool
  quotaFull : Bool
  items : List (String × LSCell α)

/-- The transient store's key: `github-score-${owner}-${repo}` with the
arguments used verbatim. -/
def lsKey (owner repo : String) : String :=
  "github-score-" ++ owner ++ "-" ++ repo

/-- `getCachedScore(owner, repo)` of the localStorage store: look the key
up, parse, and return the entry while it is less than one hour old
(`Date.now() - data.timestamp < 3600000`); any failure is caught and
becomes `null` (here `none`). -/
def ls_getCachedScore (st : LSState α) (owner repo : String) (now : ℤ) :
    Option (α × ℤ) :=
  if !st.available then none
  else
    match st.items.lookup (lsKey owner repo) with
    | some (.good payload ts) =>
      if now - ts < 3600000 then some (payload, ts) else none
    | some .corrupt => none
    | none => none

/-- `cacheScore(owner, repo, scoreData)` of the localStorage store: store
`{...scoreData, timestamp: Date.now()}` under the key (overwriting) and
return `true`; a thrown storage error is caught and returns `false`. -/
def ls_cacheScore (st : LSState α) (owner repo : String) (scoreData : α)
    (now : ℤ) : LSState α × Bool :=
  if !st.available || st.quotaFull then (st, false)
  else
    ({ st with
        items :=
          (lsKey owner repo, LSCell.good scoreData now) ::
            st.items.filter (fun p => p.1 ≠ lsKey owner repo) },
      true)

/-- A document of the Mongo `scores` collection: the lowercased key pair,
the spread score payload, and the bookkeeping timestamps. -/
structure MongoDoc (α : Type) where
  owner : String
  repo : String
  payload : α
  createdAt : ℤ
  updatedAt : ℤ
deriving DecidableEq

/-- The MongoDB connection as seen by the cache utility: `connected = false`
models `connectToDatabase` returning `null` (no URI or connection error),
`findFails`/`writeFails` model the query promises rejecting, and `docs` is
the `scores` collection keyed by the lowercased `(owner, repo)` pair. -/
structure MongoState (α : Type) where
  connected : Bool
  findFails : Bool
  writeFails : Bool
  docs : List ((String × String) × MongoDoc α)

/-- `getCachedScore(owner, repo)` of the MongoDB store: `findOne` on the
lowercased key.  The collection's TTL index
(`createIndex({createdAt: 1}, {expireAfterSeconds: 86400})`) is modelled as
the store not returning a document whose age exceeds 24 hours.  A failed
connection or query is caught and becomes `null`. -/
def mongo_getCachedScore (st : MongoState α) (owner repo : String)
    (now : ℤ) : Option (MongoDoc α) :=
  if !st.connected || st.findFails then none
  else
    match st.docs.lookup (jsToLowerCase owner, jsToLowerCase repo) with
    | some d => if 86400000 < now - d.createdAt then none else some d
    | none => none

/-- `cacheScore(owner, repo, scoreData)` of the MongoDB store: `replaceOne`
with `upsert: true` on the lowercased key, writing the lowercased key pair,
the payload and fresh timestamps; returns `true`, or `false` when the
connection or the write fails (caught). -/
def mongo_cacheScore (st : MongoState α) (owner repo : String)
    (scoreData : α) (now : ℤ) : MongoState α × Bool :=
  if !st.connected || st.writeFails then (st, false)
  else
    ({ st with
        docs :=
          ((jsToLowerCase owner, jsToLowerCase repo),
              ⟨jsToLowerCase owner, jsToLowerCase repo, scoreData, now, now⟩) ::
            st.docs.filter (fun p => p.1 ≠ (jsToLowerCase owner, jsToLowerCase repo)) },
      true)

/-! ## Bounds of the category scorers -/

theorem avg4_bounds {a b c d : ℝ} (ha : 0 ≤ a ∧ a ≤ 1) (hb : 0 ≤ b ∧ b ≤ 1)
    (hc : 0 ≤ c ∧ c ≤ 1) (hd : 0 ≤ d ∧ d ≤ 1) :
    0 ≤ (a + b + c + d) / 4 ∧ (a + b + c + d) / 4 ≤ 1 := by
  obtain ⟨ha1, ha2⟩ := ha
  obtain ⟨hb1, hb2⟩ := hb
  obtain ⟨hc1, hc2⟩ := hc
  obtain ⟨hd1, hd2⟩ := hd
  constructor <;> linarith

theorem scoreDocumentation_bounds (repo : Repo) (rt ct : Option String) :
    0 ≤ (scoreDocumentation repo rt ct).score ∧
      (scoreDocumentation repo rt ct).score ≤ 1 := by
  unfold scoreDocumentation
  apply avg4_bounds
  · rcases rt with _ | s
    · simp [jsTruthyStr]
    · by_cases hs : s = ""
      · simp [jsTruthyStr, hs]
      · simp only [jsTruthyStr, hs]
        rw [if_pos (by simp [hs]), if_neg (fun h => h)]
        refine ⟨le_min ?_ (by norm_num), min_le_right _ _⟩
        split_ifs <;> norm_num
  · rcases ct with _ | s <;> simp <;> split_ifs <;> norm_num
  · split_ifs <;> norm_num
  · split_ifs <;> norm_num

theorem scoreMaintenance_bounds (repo : Repo)
    (hist : Option (List CommitNode)) (now : ℤ) :
    0 ≤ (scoreMaintenance repo hist now).score ∧
      (scoreMaintenance repo hist now).score ≤ 1 := by
  unfold scoreMaintenance
  apply avg4_bounds
  · rcases repo.pushedAt with _ | t <;> simp <;> split_ifs <;> norm_num
  · constructor
    · apply le_min ?_ (by norm_num)
      positivity
    · exact min_le_right _ _
  · split_ifs with h
    · constructor
      · positivity
      · rw [div_le_one (by exact_mod_cast h)]
        exact_mod_cast Nat.le_add_left _ _
    · norm_num
  · split_ifs with h
    · constructor
      · positivity
      · rw [div_le_one (by exact_mod_cast h)]
        exact_mod_cast Nat.le_add_left _ _
    · norm_num

theorem scoreQuality_bounds (wf : Option (List String)) (repo : Repo) :
    0 ≤ (scoreQuality wf repo).score ∧ (scoreQuality wf repo).score ≤ 1 := by
  unfold scoreQuality
  apply avg4_bounds <;> (try split_ifs) <;> norm_num

theorem scoreCommunity_bounds (repo : Repo)
    (hist : Option (List CommitNode)) :
    0 ≤ (scoreCommunity repo hist).score ∧
      (scoreCommunity repo hist).score ≤ 1 := by
  unfold scoreCommunity
  apply avg4_bounds
  · exact ⟨normalizeLog_nonneg _ _ _ _, normalizeLog_le_one _ _ _ _⟩
  · split_ifs <;> norm_num
  · norm_num
  · split_ifs <;> norm_num

theorem scorePopularity_bounds (repo : Repo) :
    0 ≤ (scorePopularity repo).score ∧ (scorePopularity repo).score ≤ 1 := by
  unfold scorePopularity
  apply avg4_bounds
  · exact ⟨normalizeLog_nonneg _ _ _ _, normalizeLog_le_one _ _ _ _⟩
  · exact ⟨normalizeLog_nonneg _ _ _ _, normalizeLog_le_one _ _ _ _⟩
  · exact ⟨normalizeLinear_nonneg _ _ _, normalizeLinear_le_one _ _ _⟩
  · norm_num

theorem scoreSecurity_bounds (repo : Repo) :
    0 ≤ (scoreSecurity repo).score ∧ (scoreSecurity repo).score ≤ 1 := by
  unfold scoreSecurity
  apply avg4_bounds <;> (try split_ifs) <;> norm_num

/-! ## Claim theorems -/

/-- Round to one decimal place, as the spec's `round(x, 1 decimal)`. -/
noncomputable def roundTo1 (x : ℝ) : ℝ := (jsRound (x * 10) : ℝ) / 10

/-- The final-score formula in the spec's words: the weighted sum of the six
category scores with the documented constant weights, times 10, rounded to
one decimal place, clamped to at most 10. -/
noncomputable def specFinalScore (d m q c p s : ℝ) : ℝ :=
  min (roundTo1 ((0.20 * d + 0.20 * m + 0.15 * q + 0.15 * c + 0.15 * p +
    0.15 * s) * 10)) 10

theorem jsRound_nonneg (x : ℝ) (hx : 0 ≤ x) : 0 ≤ jsRound x :=
  Int.floor_nonneg.mpr (by linarith)

/-- C1: for every well-formed snapshot the aggregator computes the final
score from the six category scores with the fixed weights 0.20, 0.20, 0.15,
0.15, 0.15, 0.15 (which sum to 1, hence to 1.0 within 1e-9), as the
weighted sum times 10 rounded to one decimal and clamped to at most 10. -/
theorem aggregator_weighted_formula :
    (CATEGORY_WEIGHTS.documentation + CATEGORY_WEIGHTS.maintenance +
        CATEGORY_WEIGHTS.quality + CATEGORY_WEIGHTS.community +
        CATEGORY_WEIGHTS.popularity + CATEGORY_WEIGHTS.security = 1) ∧
      |CATEGORY_WEIGHTS.documentation + CATEGORY_WEIGHTS.maintenance +
          CATEGORY_WEIGHTS.quality + CATEGORY_WEIGHTS.community +
          CATEGORY_WEIGHTS.popularity + CATEGORY_WEIGHTS.security - 1| ≤
        1e-9 ∧
      ∀ (rd : RepoData) (wf : Option (List String)) (now : ℤ) (cAt : String),
        (calculateRepositoryScore rd wf now cAt).score =
          specFinalScore
            (scoreDocumentation rd.repository
              (jsOrStr rd.repository.objectText rd.repository.readmeObjectText)
              rd.repository.contributingObjectText).score
            (scoreMaintenance rd.repository rd.repository.defaultBranchHistory
              now).score
            (scoreQuality wf rd.repository).score
            (scoreCommunity rd.repository
              rd.repository.defaultBranchHistory).score
            (scorePopularity rd.repository).score
            (scoreSecurity rd.repository).score := by
  refine ⟨by norm_num [CATEGORY_WEIGHTS], by norm_num [CATEGORY_WEIGHTS], ?_⟩
  intro rd wf now cAt
  unfold calculateRepositoryScore specFinalScore roundTo1 CATEGORY_WEIGHTS
  norm_num
  ring_nf

/-- C2: every category scorer returns a score in `[0, 1]` on every input,
and `calculateRepositoryScore` returns a final score in `[0, 10]`. -/
theorem scorer_and_final_score_bounds :
    ∀ (repo : Repo) (rt ct : Option String)
      (hist : Option (List CommitNode)) (wf : Option (List String)) (now : ℤ)
      (rd : RepoData) (cAt : String),
      (0 ≤ (scoreDocumentation repo rt ct).score ∧
        (scoreDocumentation repo rt ct).score ≤ 1) ∧
      (0 ≤ (scoreMaintenance repo hist now).score ∧
        (scoreMaintenance repo hist now).score ≤ 1) ∧
      (0 ≤ (scoreQuality wf repo).score ∧ (scoreQuality wf repo).score ≤ 1) ∧
      (0 ≤ (scoreCommunity repo hist).score ∧
        (scoreCommunity repo hist).score ≤ 1) ∧
      (0 ≤ (scorePopularity repo).score ∧ (scorePopularity repo).score ≤ 1) ∧
      (0 ≤ (scoreSecurity repo).score ∧ (scoreSecurity repo).score ≤ 1) ∧
      (0 ≤ (calculateRepositoryScore rd wf now cAt).score ∧
        (calculateRepositoryScore rd wf now cAt).score ≤ 10) := by
  intro repo rt ct hist wf now rd cAt
  refine ⟨scoreDocumentation_bounds repo rt ct,
    scoreMaintenance_bounds repo hist now, scoreQuality_bounds wf repo,
    scoreCommunity_bounds repo hist, scorePopularity_bounds repo,
    scoreSecurity_bounds repo, ?_, ?_⟩
  · obtain ⟨hd, _⟩ := scoreDocumentation_bounds rd.repository
      (jsOrStr rd.repository.objectText rd.repository.readmeObjectText)
      rd.repository.contributingObjectText
    obtain ⟨hm, _⟩ := scoreMaintenance_bounds rd.repository
      rd.repository.defaultBranchHistory now
    obtain ⟨hq, _⟩ := scoreQuality_bounds wf rd.repository
    obtain ⟨hc, _⟩ := scoreCommunity_bounds rd.repository
      rd.repository.defaultBranchHistory
    obtain ⟨hp, _⟩ := scorePopularity_bounds rd.repository
    obtain ⟨hs, _⟩ := scoreSecurity_bounds rd.repository
    unfold calculateRepositoryScore
    dsimp only
    apply le_min ?_ (by norm_num)
    apply div_nonneg ?_ (by norm_num)
    rw [Int.cast_nonneg]
    apply jsRound_nonneg
    unfold CATEGORY_WEIGHTS
    dsimp only
    nlinarith [hd, hm, hq, hc, hp, hs]
  · exact min_le_right _ _

/-- A snapshot with every optional field absent and every flag off. -/
def emptyRepo : Repo where
  name := "r"
  description := none
  url := "u"
  stargazerCount := none
  forkCount := none
  watchers := none
  issues := none
  closedIssues := none
  pullRequests := none
  mergedPullRequests := none
  releases := none
  codeOfConduct := false
  securityPolicyUrl := none
  pushedAt := none
  updatedAt := none
  hasIssuesEnabled := false
  hasWikiEnabled := false
  hasDiscussionsEnabled := false
  hasVulnerabilityAlertsEnabled := false
  objectText := none
  readmeObjectText := none
  contributingObjectText := none
  defaultBranchHistory := none
  languages := []

/-- C4 counterexample: with an absent workflow listing the quality category
score is 0, not 0.125 — the build-status sub-score is 0.5 only when
workflows are present, so an absent listing zeroes all four sub-scores. -/
theorem quality_absent_workflows_counterexample :
    (scoreQuality none emptyRepo).score = 0 ∧
      ¬ (scoreQuality none emptyRepo).score = 0.125 := by
  constructor <;> simp [scoreQuality] <;> norm_num

/-- C4 (amended): an absent (or empty) workflow listing yields a quality
category score of exactly 0, computed as (0 + 0 + 0 + 0)/4, with a
CI-pipeline sub-score of 0 and a build-status sub-score of 0 (the 0.5
build-status partial credit applies only when workflows are present). -/
theorem absent_workflows_quality_score :
    ∀ (wf : Option (List String)) (repo : Repo),
      wf = none ∨ wf = some [] →
      (scoreQuality wf repo).score = 0 ∧
        (0 : ℝ) = (0 + 0 + 0 + 0) / 4 ∧
        (scoreQuality wf repo).breakdown.ciPipeline = 0 ∧
        (scoreQuality wf repo).breakdown.buildStatus = 0 := by
  rintro wf repo (rfl | rfl) <;>
    refine ⟨?_, by norm_num, ?_, ?_⟩ <;> simp [scoreQuality]

theorem absent_workflows_quality_score_witness :
    ((none : Option (List String)) = none ∨
        (none : Option (List String)) = some []) ∧
      (scoreQuality none emptyRepo).score = 0 ∧
        (0 : ℝ) = (0 + 0 + 0 + 0) / 4 ∧
        (scoreQuality none emptyRepo).breakdown.ciPipeline = 0 ∧
        (scoreQuality none emptyRepo).breakdown.buildStatus = 0 :=
  ⟨Or.inl rfl, absent_workflows_quality_score none emptyRepo (Or.inl rfl)⟩

/-- C10: when `pushedAt` is absent the maintenance scorer treats the days
since the last push as infinite (`none` in this model), the recency
sub-score is 0, and the scorer still returns a normal in-range category
result. -/
theorem missing_pushedAt_recency_zero :
    ∀ (repo : Repo) (hist : Option (List CommitNode)) (now : ℤ),
      repo.pushedAt = none →
      (scoreMaintenance repo hist now).details.daysSinceLastCommit = none ∧
        (scoreMaintenance repo hist now).breakdown.recentCommits = 0 ∧
        0 ≤ (scoreMaintenance repo hist now).score ∧
        (scoreMaintenance repo hist now).score ≤ 1 := by
  intro repo hist now h
  obtain ⟨h1, h2⟩ := scoreMaintenance_bounds repo hist now
  refine ⟨?_, ?_, h1, h2⟩ <;> simp [scoreMaintenance, h]

theorem missing_pushedAt_recency_zero_witness :
    emptyRepo.pushedAt = none ∧
      ((scoreMaintenance emptyRepo none 0).details.daysSinceLastCommit =
          none ∧
        (scoreMaintenance emptyRepo none 0).breakdown.recentCommits = 0 ∧
        0 ≤ (scoreMaintenance emptyRepo none 0).score ∧
        (scoreMaintenance emptyRepo none 0).score ≤ 1) :=
  ⟨rfl, missing_pushedAt_recency_zero emptyRepo none 0 rfl⟩

/-- C3: the scoring entry point is total by construction in this embedding
(every function below is a total Lean function), and each missing optional
field is treated as its documented default: no README text → README
sub-score 0; no CONTRIBUTING text → contributing sub-score 0; no release
count → releases sub-score 0; no `pushedAt` → recency sub-score 0; no
commit history → frequency sub-score 0 and contributor count 1 (contributor
sub-score 0); absent workflow listing → CI and build sub-scores 0; missing
issue and PR counts → the neutral 0.5 defaults. -/
theorem missing_fields_defaults :
    ∀ (repo : Repo) (rt ct : Option String)
      (hist : Option (List CommitNode)) (wf : Option (List String)) (now : ℤ),
      (rt = none → (scoreDocumentation repo rt ct).breakdown.readme = 0) ∧
      (ct = none →
        (scoreDocumentation repo rt ct).breakdown.contributing = 0) ∧
      (repo.releases = none →
        (scoreDocumentation repo rt ct).breakdown.releases = 0) ∧
      (repo.pushedAt = none →
        (scoreMaintenance repo hist now).breakdown.recentCommits = 0) ∧
      (hist = none →
        (scoreMaintenance repo hist now).breakdown.commitFrequency = 0) ∧
      (repo.issues = none → repo.closedIssues = none →
        (scoreMaintenance repo hist now).breakdown.issueManagement = 0.5) ∧
      (repo.pullRequests = none → repo.mergedPullRequests = none →
        (scoreMaintenance repo hist now).breakdown.prManagement = 0.5) ∧
      (wf = none →
        (scoreQuality wf repo).breakdown.ciPipeline = 0 ∧
          (scoreQuality wf repo).breakdown.buildStatus = 0) ∧
      (hist = none →
        (scoreCommunity repo hist).details.contributorCount = 1 ∧
          (scoreCommunity repo hist).breakdown.contributors = 0) := by
  intro repo rt ct hist wf now
  refine ⟨?_, ?_, ?_, ?_, ?_, ?_, ?_, ?_, ?_⟩
  · rintro rfl; simp [scoreDocumentation, jsTruthyStr]
  · rintro rfl; simp [scoreDocumentation]
  · intro h; simp [scoreDocumentation, h]
  · intro h; simp [scoreMaintenance, h]
  · rintro rfl
    simp [scoreMaintenance]
  · intro h1 h2; simp [scoreMaintenance, h1, h2]
  · intro h1 h2; simp [scoreMaintenance, h1, h2]
  · rintro rfl; simp [scoreQuality]
  · rintro rfl
    constructor
    · simp [scoreCommunity]
    · simp [scoreCommunity, normalizeLog]

theorem missing_fields_defaults_witness :
    (scoreDocumentation emptyRepo none none).breakdown.readme = 0 ∧
      (scoreDocumentation emptyRepo none none).breakdown.contributing = 0 ∧
      (scoreDocumentation emptyRepo none none).breakdown.releases = 0 ∧
      (scoreMaintenance emptyRepo none 0).breakdown.recentCommits = 0 ∧
      (scoreMaintenance emptyRepo none 0).breakdown.commitFrequency = 0 ∧
      (scoreMaintenance emptyRepo none 0).breakdown.issueManagement = 0.5 ∧
      (scoreMaintenance emptyRepo none 0).breakdown.prManagement = 0.5 ∧
      (scoreQuality none emptyRepo).breakdown.ciPipeline = 0 ∧
      (scoreQuality none emptyRepo).breakdown.buildStatus = 0 ∧
      (scoreCommunity emptyRepo none).details.contributorCount = 1 ∧
      (scoreCommunity emptyRepo none).breakdown.contributors = 0 := by
  obtain ⟨h1, h2, h3, h4, h5, h6, h7, h8, h9⟩ :=
    missing_fields_defaults emptyRepo none none none none 0
  exact ⟨h1 rfl, h2 rfl, h3 rfl, h4 rfl, h5 rfl, h6 rfl rfl, h7 rfl rfl,
    (h8 rfl).1, (h8 rfl).2, (h9 rfl).1, (h9 rfl).2⟩

/-- A ScoreResult with the `calculatedAt` metadata field blanked, for
comparing two runs up to their timestamps. -/
def eraseCalculatedAt (r : ScoreResult) : ScoreResult :=
  { r with metadata := { r.metadata with calculatedAt := "" } }

/-- C6: two runs of the scoring engine on the identical snapshot and
workflow listing (and the same clock instant `now`, the only clock input
the category scorers read) produce identical ScoreResults except for the
`calculatedAt` metadata timestamp, which is exactly the run's timestamp
argument. -/
theorem scoring_two_run_determinism :
    ∀ (rd : RepoData) (wf : Option (List String)) (now : ℤ) (t1 t2 : String),
      eraseCalculatedAt (calculateRepositoryScore rd wf now t1) =
        eraseCalculatedAt (calculateRepositoryScore rd wf now t2) ∧
      (calculateRepositoryScore rd wf now t1).metadata.calculatedAt = t1 :=
  fun _ _ _ _ _ => ⟨rfl, rfl⟩

/-- C8: both normalizers are total clamping functions: monotone
non-decreasing in the value, 0 at or below `min`, 1 at or above `max` (for
a non-degenerate `min < max` range), and on the interior given by the
logarithmic ratio resp. linear interpolation formulas. -/
theorem normalizers_clamp_monotone :
    ∀ (v w mn mx b : ℝ),
      (v ≤ w → normalizeLog v mn mx b ≤ normalizeLog w mn mx b) ∧
      (v ≤ w → normalizeLinear v mn mx ≤ normalizeLinear w mn mx) ∧
      (v ≤ mn → normalizeLog v mn mx b = 0 ∧ normalizeLinear v mn mx = 0) ∧
      (mn < mx → mx ≤ v →
        normalizeLog v mn mx b = 1 ∧ normalizeLinear v mn mx = 1) ∧
      (mn < v → v < mx →
        normalizeLog v mn mx b =
            Real.log (v - mn + 1) / Real.log (mx - mn + 1) ∧
          normalizeLinear v mn mx = (v - mn) / (mx - mn)) := by
  intro v w mn mx b
  refine ⟨normalizeLog_mono v w mn mx b, normalizeLinear_mono v w mn mx,
    ?_, ?_, ?_⟩
  · intro h
    constructor
    · rw [normalizeLog, if_pos h]
    · rw [normalizeLinear, if_pos h]
  · intro hmm h
    have hv : ¬ v ≤ mn := not_le.mpr (lt_of_lt_of_le hmm h)
    constructor
    · rw [normalizeLog, if_neg hv, if_pos h]
    · rw [normalizeLinear, if_neg hv, if_pos h]
  · intro h1 h2
    constructor
    · rw [normalizeLog, if_neg (not_le.mpr h1), if_neg (not_le.mpr h2)]
    · rw [normalizeLinear, if_neg (not_le.mpr h1), if_neg (not_le.mpr h2)]

theorem normalizers_clamp_monotone_witness :
    ((1:ℝ) ≤ 2 ∧ (0:ℝ) ≤ 0 ∧ (0:ℝ) < 10 ∧ (10:ℝ) ≤ 10 ∧ (0:ℝ) < 5 ∧
        (5:ℝ) < 10) ∧
      normalizeLog 1 0 10 10 ≤ normalizeLog 2 0 10 10 ∧
      normalizeLinear 1 0 10 ≤ normalizeLinear 2 0 10 ∧
      (normalizeLog 0 0 10 10 = 0 ∧ normalizeLinear 0 0 10 = 0) ∧
      (normalizeLog 10 0 10 10 = 1 ∧ normalizeLinear 10 0 10 = 1) ∧
      (normalizeLog 5 0 10 10 = Real.log (5 - 0 + 1) / Real.log (10 - 0 + 1) ∧
        normalizeLinear 5 0 10 = (5 - 0) / (10 - 0)) := by
  refine ⟨⟨by norm_num, le_refl 0, by norm_num, by norm_num, by norm_num,
    by norm_num⟩, ?_, ?_, ?_, ?_, ?_⟩
  · exact (normalizers_clamp_monotone 1 2 0 10 10).1 (by norm_num)
  · exact (normalizers_clamp_monotone 1 2 0 10 10).2.1 (by norm_num)
  · exact (normalizers_clamp_monotone 0 0 0 10 10).2.2.1 (le_refl 0)
  · exact (normalizers_clamp_monotone 10 0 0 10 10).2.2.2.1 (by norm_num)
      (by norm_num)
  · exact (normalizers_clamp_monotone 5 0 0 10 10).2.2.2.2 (by norm_num)
      (by norm_num)

/-- C5 counterexample: the transient localStorage store builds its key from
`owner` and `repo` verbatim, so a fresh entry cached as "Owner"/"Repo" is
found under the same spelling but missed by the differently-cased lookup
"owner"/"repo" even at age 0, contradicting case-insensitive key
comparison. -/
theorem cache_case_insensitive_counterexample :
    ls_getCachedScore
        (ls_cacheScore (⟨true, false, []⟩ : LSState ℕ) "Owner" "Repo" 7 0).1
        "owner" "repo" 0 = none ∧
      ls_getCachedScore
        (ls_cacheScore (⟨true, false, []⟩ : LSState ℕ) "Owner" "Repo" 7 0).1
        "Owner" "Repo" 0 = some (7, 0) := by
  constructor <;> rfl

/-- C5 (amended): the cache round trip with TTL expiry holds, with
case-insensitive key comparison in the persistent MongoDB store only: there
`cacheScore` followed by `getCachedScore` under any casing of the same pair
returns the payload plus bookkeeping fields while the age is at most the
24-hour TTL and absent once it exceeds it.  In the transient localStorage
store the key uses owner and repo verbatim, so the round trip (entry plus
`timestamp` within the 1-hour TTL, absent from age 1 hour on) holds for a
lookup with the same spelling. -/
theorem cache_roundtrip_ttl :
    ∀ (α : Type) (st : MongoState α) (ls : LSState α) (o r o2 r2 : String)
      (x : α) (tPut tGet : ℤ),
      (st.connected = true → st.findFails = false → st.writeFails = false →
        jsToLowerCase o2 = jsToLowerCase o → jsToLowerCase r2 = jsToLowerCase r →
        (tGet - tPut ≤ 86400000 →
          mongo_getCachedScore (mongo_cacheScore st o r x tPut).1 o2 r2 tGet =
            some ⟨jsToLowerCase o, jsToLowerCase r, x, tPut, tPut⟩) ∧
        (86400000 < tGet - tPut →
          mongo_getCachedScore (mongo_cacheScore st o r x tPut).1 o2 r2 tGet =
            none)) ∧
      (ls.available = true → ls.quotaFull = false →
        (tGet - tPut < 3600000 →
          ls_getCachedScore (ls_cacheScore ls o r x tPut).1 o r tGet =
            some (x, tPut)) ∧
        (3600000 ≤ tGet - tPut →
          ls_getCachedScore (ls_cacheScore ls o r x tPut).1 o r tGet =
            none)) := by
  intro α st ls o r o2 r2 x tPut tGet
  constructor
  · intro hc hf hw ho hr
    constructor
    · intro ht
      simp [mongo_getCachedScore, mongo_cacheScore, hc, hf, hw, ho, hr,
        List.lookup, not_lt.mpr ht]
    · intro ht
      simp [mongo_getCachedScore, mongo_cacheScore, hc, hf, hw, ho, hr,
        List.lookup, ht]
  · intro ha hq
    have hkey :
        (ls_cacheScore ls o r x tPut).1.items.lookup (lsKey o r) =
          some (LSCell.good x tPut) := by
      simp [ls_cacheScore, ha, hq, List.lookup]
    constructor
    · intro ht
      simp [ls_getCachedScore, ls_cacheScore, ha, hq, hkey, ht]
    · intro ht
      simp [ls_getCachedScore, ls_cacheScore, ha, hq, hkey, not_lt.mpr ht]

theorem cache_roundtrip_ttl_witness :
    (jsToLowerCase "foo" = jsToLowerCase "Foo" ∧ jsToLowerCase "bAR" = jsToLowerCase "Bar" ∧
        (1000 : ℤ) - 0 ≤ 86400000 ∧ (86400000 : ℤ) < 86400001 - 0 ∧
        (1000 : ℤ) - 0 < 3600000 ∧ (3600000 : ℤ) ≤ 3600000 - 0) ∧
      mongo_getCachedScore
          (mongo_cacheScore (⟨true, false, false, []⟩ : MongoState ℕ)
            "Foo" "Bar" 7 0).1 "foo" "bAR" 1000 =
        some ⟨jsToLowerCase "Foo", jsToLowerCase "Bar", 7, 0, 0⟩ ∧
      mongo_getCachedScore
          (mongo_cacheScore (⟨true, false, false, []⟩ : MongoState ℕ)
            "Foo" "Bar" 7 0).1 "foo" "bAR" 86400001 = none ∧
      ls_getCachedScore
          (ls_cacheScore (⟨true, false, []⟩ : LSState ℕ) "Foo" "Bar" 7 0).1
          "Foo" "Bar" 1000 = some (7, 0) ∧
      ls_getCachedScore
          (ls_cacheScore (⟨true, false, []⟩ : LSState ℕ) "Foo" "Bar" 7 0).1
          "Foo" "Bar" 3600000 = none := by
  have h1 := cache_roundtrip_ttl ℕ ⟨true, false, false, []⟩ ⟨true, false, []⟩
    "Foo" "Bar" "foo" "bAR" 7 0 1000
  have h2 := cache_roundtrip_ttl ℕ ⟨true, false, false, []⟩ ⟨true, false, []⟩
    "Foo" "Bar" "foo" "bAR" 7 0 86400001
  have h3 := cache_roundtrip_ttl ℕ ⟨true, false, false, []⟩ ⟨true, false, []⟩
    "Foo" "Bar" "foo" "bAR" 7 0 3600000
  refine ⟨⟨by decide, by decide, by decide, by decide, by decide, by decide⟩,
    ?_, ?_, ?_, ?_⟩
  · exact (h1.1 rfl rfl rfl (by decide) (by decide)).1 (by decide)
  · exact (h2.1 rfl rfl rfl (by decide) (by decide)).2 (by decide)
  · exact (h1.2 rfl rfl).1 (by decide)
  · exact (h3.2 rfl rfl).2 (by decide)

/-- C9: every failure inside the cache layer — storage unavailable, write
failure, corrupt entry, no database connection, failing query — is caught
and becomes a cache miss (`none`) or a no-op (`false` with the state
unchanged) in both the transient and the persistent store; the embedded
operations return plain `Option`/`Bool` values, never a propagating
error. -/
theorem cache_failures_never_propagate :
    ∀ (α : Type) (ls : LSState α) (st : MongoState α) (o r : String) (x : α)
      (now : ℤ),
      (ls.available = false →
        ls_getCachedScore ls o r now = none ∧
          ls_cacheScore ls o r x now = (ls, false)) ∧
      (ls.available = true →
        ls.items.lookup (lsKey o r) = some LSCell.corrupt →
        ls_getCachedScore ls o r now = none) ∧
      (ls.quotaFull = true → ls_cacheScore ls o r x now = (ls, false)) ∧
      (st.connected = false →
        mongo_getCachedScore st o r now = none ∧
          mongo_cacheScore st o r x now = (st, false)) ∧
      (st.findFails = true → mongo_getCachedScore st o r now = none) ∧
      (st.writeFails = true → mongo_cacheScore st o r x now = (st, false)) := by
  intro α ls st o r x now
  refine ⟨?_, ?_, ?_, ?_, ?_, ?_⟩
  · intro h
    constructor <;> simp [ls_getCachedScore, ls_cacheScore, h]
  · intro h1 h2
    simp [ls_getCachedScore, h1, h2]
  · intro h
    simp [ls_cacheScore, h]
  · intro h
    constructor <;> simp [mongo_getCachedScore, mongo_cacheScore, h]
  · intro h
    simp [mongo_getCachedScore, h]
  · intro h
    simp [mongo_cacheScore, h]

theorem cache_failures_never_propagate_witness :
    ls_getCachedScore (⟨false, false, []⟩ : LSState ℕ) "o" "r" 0 = none ∧
      ls_cacheScore (⟨false, false, []⟩ : LSState ℕ) "o" "r" 5 0 =
        (⟨false, false, []⟩, false) ∧
      ls_getCachedScore
          (⟨true, false, [(lsKey "o" "r", LSCell.corrupt)]⟩ : LSState ℕ)
          "o" "r" 0 = none ∧
      ls_cacheScore (⟨true, true, []⟩ : LSState ℕ) "o" "r" 5 0 =
        (⟨true, true, []⟩, false) ∧
      mongo_getCachedScore (⟨false, false, false, []⟩ : MongoState ℕ)
          "o" "r" 0 = none ∧
      mongo_cacheScore (⟨false, false, false, []⟩ : MongoState ℕ)
          "o" "r" 5 0 = (⟨false, false, false, []⟩, false) ∧
      mongo_getCachedScore (⟨true, true, false, []⟩ : MongoState ℕ)
          "o" "r" 0 = none ∧
      mongo_cacheScore (⟨true, false, true, []⟩ : MongoState ℕ)
          "o" "r" 5 0 = (⟨true, false, true, []⟩, false) := by
  have hdead := cache_failures_never_propagate ℕ ⟨false, false, []⟩
    ⟨false, false, false, []⟩ "o" "r" 5 0
  have hcorrupt := cache_failures_never_propagate ℕ
    ⟨true, false, [(lsKey "o" "r", LSCell.corrupt)]⟩
    ⟨true, true, false, []⟩ "o" "r" 5 0
  have hquota := cache_failures_never_propagate ℕ ⟨true, true, []⟩
    ⟨true, false, true, []⟩ "o" "r" 5 0
  exact ⟨(hdead.1 rfl).1, (hdead.1 rfl).2,
    hcorrupt.2.1 rfl (by rfl), (hquota.2.2.1 rfl),
    (hdead.2.2.2.1 rfl).1, (hdead.2.2.2.1 rfl).2,
    hcorrupt.2.2.2.2.1 rfl, hquota.2.2.2.2.2 rfl⟩

/-- A commit authored by the GitHub user `login` at instant `t`. -/
def commitBy (login : String) (t : ℤ) : CommitNode :=
  ⟨t, some ⟨none, none, some ⟨login⟩⟩⟩

/-- C7 (amended): for a commit history of exactly 3 commits by 3 distinct
usernames (distinct after lowercasing, as the code compares) all dated
strictly after the instant three calendar months before `now` (the
`setMonth(-3)` cutoff the code actually uses), the community contributors
sub-score equals `normalizeLog 3 1 50` (called with the unused log base 2)
and the maintenance frequency sub-score equals `min ((3/12)/2) 1`. -/
theorem three_commits_scenario :
    ∀ (repo : Repo) (now t1 t2 t3 : ℤ) (u1 u2 u3 : String),
      u1 ≠ "" → u2 ≠ "" → u3 ≠ "" →
      jsToLowerCase u1 ≠ jsToLowerCase u2 →
      jsToLowerCase u1 ≠ jsToLowerCase u3 →
      jsToLowerCase u2 ≠ jsToLowerCase u3 →
      jsAddMonths now (-3) < t1 → jsAddMonths now (-3) < t2 →
      jsAddMonths now (-3) < t3 →
      (scoreCommunity repo
            (some [commitBy u1 t1, commitBy u2 t2, commitBy u3 t3])
          ).details.contributorCount = 3 ∧
      (scoreCommunity repo
            (some [commitBy u1 t1, commitBy u2 t2, commitBy u3 t3])
          ).breakdown.contributors = normalizeLog 3 1 50 2 ∧
      (scoreMaintenance repo
            (some [commitBy u1 t1, commitBy u2 t2, commitBy u3 t3]) now
          ).breakdown.commitFrequency = min ((3 / 12) / 2) 1 := by
  intro repo now t1 t2 t3 u1 u2 u3 hu1 hu2 hu3 h12 h13 h23 ht1 ht2 ht3
  have hids :
      ([commitBy u1 t1, commitBy u2 t2, commitBy u3 t3].filterMap
        commitIdentifier) = [u1, u2, u3] := by
    simp [commitBy, commitIdentifier, jsOrStr, jsTruthyStr, hu1, hu2, hu3]
  have hcount :
      uniqueContributorCount [commitBy u1 t1, commitBy u2 t2, commitBy u3 t3]
        = 3 := by
    unfold uniqueContributorCount
    rw [hids]
    rw [List.Nodup.dedup (by simp [h12, h13, h23])]
    rfl
  refine ⟨?_, ?_, ?_⟩
  · simp [scoreCommunity, hcount]
  · simp only [scoreCommunity, hcount]
    norm_num
  · have hfilter :
        ([commitBy u1 t1, commitBy u2 t2, commitBy u3 t3].filter
          (fun c => jsAddMonths now (-3) < c.committedDate)) =
          [commitBy u1 t1, commitBy u2 t2, commitBy u3 t3] := by
      simp [commitBy, List.filter, ht1, ht2, ht3]
    simp only [scoreMaintenance, Option.getD_some, hfilter]
    norm_num

theorem three_commits_scenario_witness :
    (("a" : String) ≠ "" ∧ ("b" : String) ≠ "" ∧ ("c" : String) ≠ "" ∧
        jsToLowerCase "a" ≠ jsToLowerCase "b" ∧
        jsToLowerCase "a" ≠ jsToLowerCase "c" ∧
        jsToLowerCase "b" ≠ jsToLowerCase "c" ∧
        jsAddMonths 1748692800000 (-3) < 1748692800000) ∧
      (scoreCommunity emptyRepo
            (some [commitBy "a" 1748692800000, commitBy "b" 1748692800000,
              commitBy "c" 1748692800000])).details.contributorCount = 3 ∧
      (scoreCommunity emptyRepo
            (some [commitBy "a" 1748692800000, commitBy "b" 1748692800000,
              commitBy "c" 1748692800000])).breakdown.contributors =
        normalizeLog 3 1 50 2 ∧
      (scoreMaintenance emptyRepo
            (some [commitBy "a" 1748692800000, commitBy "b" 1748692800000,
              commitBy "c" 1748692800000]) 1748692800000
          ).breakdown.commitFrequency = min ((3 / 12) / 2) 1 := by
  refine ⟨⟨by decide, by decide, by decide, by decide, by decide, by decide,
    by decide⟩, ?_⟩
  exact three_commits_scenario emptyRepo 1748692800000 1748692800000
    1748692800000 1748692800000 "a" "b" "c" (by decide) (by decide)
    (by decide) (by decide) (by decide) (by decide) (by decide) (by decide)
    (by decide)

/-- C7 counterexample: at `now` = 2025-05-31T12:00:00 UTC the `setMonth(-3)`
cutoff is 2025-03-03T12:00 UTC — only 89 days earlier, because Feb 31
overflows to Mar 3 — so three commits by three distinct usernames dated
2025-03-03T00:00 UTC (89.5 days old, squarely within the last 90 days) are
all excluded from the frequency count: the frequency sub-score is 0, not
`min ((3/12)/2) 1`. -/
theorem three_commits_counterexample :
    ((1748692800000 : ℤ) - 90 * 86400000 ≤ 1740960000000 ∧
        (1740960000000 : ℤ) ≤ 1748692800000) ∧
      (scoreMaintenance emptyRepo
            (some [commitBy "a" 1740960000000, commitBy "b" 1740960000000,
              commitBy "c" 1740960000000]) 1748692800000
          ).breakdown.commitFrequency = 0 ∧
      ¬ (scoreMaintenance emptyRepo
            (some [commitBy "a" 1740960000000, commitBy "b" 1740960000000,
              commitBy "c" 1740960000000]) 1748692800000
          ).breakdown.commitFrequency = min ((3 / 12) / 2) 1 := by
  have hcut : jsAddMonths 1748692800000 (-3) = 1741003200000 := by decide
  have hfilter :
      ([commitBy "a" 1740960000000, commitBy "b" 1740960000000,
          commitBy "c" 1740960000000].filter
        (fun c => jsAddMonths 1748692800000 (-3) < c.committedDate)) =
        [] := by
    simp [commitBy, List.filter, hcut]
  have hfreq :
      (scoreMaintenance emptyRepo
            (some [commitBy "a" 1740960000000, commitBy "b" 1740960000000,
              commitBy "c" 1740960000000]) 1748692800000
          ).breakdown.commitFrequency = 0 := by
    simp only [scoreMaintenance, Option.getD_some, hfilter]
    norm_num
  refine ⟨⟨by norm_num, by norm_num⟩, hfreq, ?_⟩
  rw [hfreq]
  rw [min_def]
  norm_num

end GitScore
